import Mathlib

/-!
Verification of the reference-merging core of `arxiv-references`
(`references/process/merge/beliefs.py` and
`references/process/merge/normalize.py`).

Python strings are modelled as lists of Unicode code points (`PyStr`),
with the ASCII fragment of the Python character classes and case mappings
(the repository only manipulates ASCII bibliographic text).  Python
floats produced by the belief machinery are modelled as exact rationals:
`statistics.mean` itself computes with exact rationals, and the belief
arithmetic consists of sums and divisions of small fractions.
Functions that can raise return `Except PyError _`.
-/

/-- A Python string, as its list of code points. -/
abbrev PyStr : Type := List Nat

/-- Build a `PyStr` from concrete characters. -/
def chars (l : List Char) : PyStr := l.map Char.toNat

/-- Python `\s` (ASCII fragment): space, tab, newline, vertical tab,
form feed, carriage return. -/
def isSpace (c : Nat) : Bool := c = 32 || c = 9 || c = 10 || c = 11 || c = 12 || c = 13

/-- ASCII decimal digit, Python `\d` (ASCII fragment). -/
def isDigit (c : Nat) : Bool := 48 ≤ c && c ≤ 57

/-- ASCII letter (the cased characters of the ASCII fragment). -/
def isAlphaN (c : Nat) : Bool := (65 ≤ c && c ≤ 90) || (97 ≤ c && c ≤ 122)

/-- ASCII alphanumeric, the class `[0-9a-zA-Z]`. -/
def isAlnum (c : Nat) : Bool := isAlphaN c || isDigit c

/-- ASCII uppercasing, as used by `str.title`. -/
def toUpperN (c : Nat) : Nat := if 97 ≤ c ∧ c ≤ 122 then c - 32 else c

/-- ASCII lowercasing, as used by `str.title`. -/
def toLowerN (c : Nat) : Nat := if 65 ≤ c ∧ c ≤ 90 then c + 32 else c

/-- One character of `str.title`: a letter is uppercased when the previous
character was not a letter and lowercased otherwise; other characters are
unchanged.  `fl` records whether the previous character was a letter. -/
def charTitle (fl : Bool) (c : Nat) : Nat :=
  if isAlphaN c then (if fl then toLowerN c else toUpperN c) else c

/-- The worker of `str.title`, threading the previous-character flag. -/
def titleGo (fl : Bool) : PyStr → PyStr
  | [] => []
  | c :: rest => charTitle fl c :: titleGo (isAlphaN c) rest

/-- Python `str.title()` (ASCII model). -/
def pyTitle (s : PyStr) : PyStr := titleGo false s

/-- The worker of `re.sub(r"\.\s*", " ", s)`: each dot together with the
following whitespace run is replaced by a single space.  `skip` is true
while inside the whitespace run that follows a dot. -/
def subDotsGo (skip : Bool) : PyStr → PyStr
  | [] => []
  | c :: rest =>
    if skip && isSpace c then subDotsGo true rest
    else if c = 46 then 32 :: subDotsGo true rest
    else c :: subDotsGo false rest

/-- `re.sub(r"\.\s*", " ", s)` from `_remove_dots`. -/
def subDots (s : PyStr) : PyStr := subDotsGo false s

/-- Drop the trailing run of characters satisfying `p` (used for
`str.strip` and for the regex `X+$`). -/
def pyRDrop (p : Nat → Bool) (l : PyStr) : PyStr :=
  (l.reverse.dropWhile p).reverse

/-- Python `str.strip()` (ASCII whitespace model). -/
def pyStrip (s : PyStr) : PyStr := pyRDrop isSpace (s.dropWhile isSpace)

/-- `_remove_dots` from `normalize.py`: remove dots while preserving
whitespace, then strip. -/
def _remove_dots (s : PyStr) : PyStr := pyStrip (subDots s)

/-- `_remove_leading_trailing_nonalpha` from `normalize.py`:
`re.sub(r"[^0-9a-zA-Z]+$", "", re.sub(r"^[^0-9a-zA-Z]+", "", s))`.
An anchored run of a character class is exactly a leading (resp.
trailing) run, so the two substitutions are the two directed drops. -/
def _remove_leading_trailing_nonalpha (s : PyStr) : PyStr :=
  pyRDrop (fun c => !isAlnum c) (s.dropWhile (fun c => !isAlnum c))

-- Python `int(...)` and the numeric regexes of `beliefs.py`.

/-- Value of a string of ASCII digits. -/
def digitsToNat (s : PyStr) : Nat := s.foldl (fun a c => a * 10 + (c - 48)) 0

/-- Python `int(str)` (ASCII model: surrounding whitespace, an optional
sign, then a non-empty digit run; digit-grouping underscores are not
modelled).  `none` models `ValueError`. -/
def pyIntParse (s : PyStr) : Option Int :=
  match pyStrip s with
  | [] => none
  | c :: rest =>
    let core : Int × PyStr :=
      if c = 43 then (1, rest) else if c = 45 then (-1, rest) else (1, c :: rest)
    if core.2 ≠ [] ∧ core.2.all isDigit then some (core.1 * digitsToNat core.2)
    else none

/-- Python `int(float)`: truncation toward zero. -/
def pyTrunc (q : ℚ) : Int := if 0 ≤ q then ⌊q⌋ else ⌈q⌉

/-- Does the regex `$` (no MULTILINE) match at this point?  It matches at
the end of the string and just before a final newline. -/
def atDollar (s : PyStr) : Bool := s = [] || s = [10]

/-- The part of `RE_INTEGER` after the leading alternative: `(\d+)(?:$|(?:\s+))`
tried at offset `preLen` of `s`.  Returns the captured digit run and the
total number of characters consumed from `s` (greedy runs are maximal:
backtracking cannot help, since a shorter digit or space run would place
the follow-up pattern on a digit or space it cannot match). -/
def reTail (preLen : Nat) (s : PyStr) : Option (PyStr × Nat) :=
  let s1 := s.drop preLen
  let d := s1.takeWhile isDigit
  if d = [] then none
  else
    let s2 := s1.drop d.length
    if atDollar s2 then some (d, preLen + d.length)
    else
      let sp := s2.takeWhile isSpace
      if sp.length = 0 then none else some (d, preLen + d.length + sp.length)

/-- One attempt to match `RE_INTEGER = (?:^|(?:\s+))(\d+)(?:$|(?:\s+))` at
the start of the suffix `s`; `atStart` tells whether this position is the
start of the whole string (where the `^` alternative applies, tried first). -/
def reMatchAt (atStart : Bool) (s : PyStr) : Option (PyStr × Nat) :=
  match (if atStart then reTail 0 s else none) with
  | some r => some r
  | none =>
    let spn := (s.takeWhile isSpace).length
    if spn = 0 then none else reTail spn s

/-- `re.finditer`/`re.subn` over `RE_INTEGER`, fuelled by the remaining
length (each match consumes at least one character, and a failed position
advances by one).  Returns the captured digit runs in order together with
the string left when every match is deleted (`re.subn` with an empty
replacement). -/
def scanIntsF : Nat → Bool → PyStr → List PyStr × PyStr
  | 0, _, s => ([], s)
  | _ + 1, _, [] => ([], [])
  | fuel + 1, atStart, c :: cs =>
    match reMatchAt atStart (c :: cs) with
    | some (tok, len) =>
      let r := scanIntsF fuel false ((c :: cs).drop len)
      (tok :: r.1, r.2)
    | none =>
      let r := scanIntsF fuel false cs
      (r.1, c :: r.2)

/-- `re.findall(RE_INTEGER, s)` paired with the leftover string of the
corresponding `re.subn` deletion. -/
def scanInts (s : PyStr) : List PyStr × PyStr := scanIntsF s.length true s

/-- The anchored match of the pages pattern `(\d+)(?:\s+)?[\s\-._/\:]+(?:\s+)?(\d+)` from
`is_pages`: anchored at the start; a digit run, a non-empty run over the
separator class (which contains all of `\s`, so the optional `\s+` groups
are absorbed), then a second digit run.  Greedy runs are maximal; no
backtracking can succeed where this fails, since digits and separators are
disjoint classes. -/
def pagesMatch (s : PyStr) : Option (Nat × Nat) :=
  let d1 := s.takeWhile isDigit
  if d1 = [] then none
  else
    let r1 := s.drop d1.length
    let sep := r1.takeWhile (fun c =>
      isSpace c || c = 45 || c = 46 || c = 95 || c = 47 || c = 58)
    if sep = [] then none
    else
      let r2 := r1.drop sep.length
      let d2 := r2.takeWhile isDigit
      if d2 = [] then none else some (digitsToNat d1, digitsToNat d2)

/-- Python `str.replace(pat, rep)` (all non-overlapping occurrences, left
to right), fuelled by the string length; an empty pattern does not occur
in this development. -/
def pyReplaceF : Nat → PyStr → PyStr → PyStr → PyStr
  | 0, s, _, _ => s
  | _ + 1, [], _, _ => []
  | fuel + 1, c :: cs, pat, rep =>
    if pat ≠ [] ∧ pat.isPrefixOf (c :: cs) then
      rep ++ pyReplaceF fuel ((c :: cs).drop pat.length) pat rep
    else c :: pyReplaceF fuel cs pat rep

/-- Python `str.replace(pat, rep)`. -/
def pyReplace (s pat rep : PyStr) : PyStr := pyReplaceF s.length s pat rep

-- The data model. `references.domain` is not among the provided sources,
-- so the record shape is modelled from the specification.

/-- Python exception kinds raised by the belief functions. -/
inductive PyError where
  | typeError
  | valueError
  | zeroDivisionError
  | attributeError
deriving DecidableEq

/-- Modelled from the spec: one author of a Record (§3), a dict with
optional name parts.  Only the parts read or written by the verified code
(`givennames`, `fullname` for normalization, `surname` for the author
belief) are carried; the remaining parts (`prefix`, `suffix`) are never
touched by the code under study. -/
structure Author where
  givennames : Option PyStr
  surname : Option PyStr
  fullname : Option PyStr
deriving DecidableEq

/-- Modelled from the spec: one entry of the `identifiers` set of a Record,
`{identifier_type, identifier}` (§3). -/
structure Identifier where
  identifier_type : PyStr
  identifier : PyStr
deriving DecidableEq

/-- A Python value as it can appear in a Record field. -/
inductive Value where
  | none
  | str (s : PyStr)
  | int (n : Int)
  | float (q : ℚ)
  | authors (l : List Author)
  | idents (l : List Identifier)
deriving DecidableEq

/-- Modelled from the spec: the Record data model (§3): `raw`, `title`,
`source`, `year` (string/number-like), `volume`, `pages`, `issue`,
`authors`, `identifiers`, `doi`, `arxiv_id`, `reftype`, `score`; absence
is empty/falsy. -/
structure Reference where
  raw : Option PyStr
  title : Option PyStr
  source : Option PyStr
  year : Value
  volume : Option PyStr
  pages : Option PyStr
  issue : Option PyStr
  authors : List Author
  identifiers : List Identifier
  doi : Option PyStr
  arxiv_id : Option PyStr
  reftype : Option PyStr
  score : Option ℚ
deriving DecidableEq

/-- The Record with every field absent. -/
def emptyRef : Reference :=
  { raw := Option.none, title := Option.none, source := Option.none,
    year := Value.none, volume := Option.none, pages := Option.none,
    issue := Option.none, authors := [], identifiers := [],
    doi := Option.none, arxiv_id := Option.none, reftype := Option.none,
    score := Option.none }

-- Field-name strings.

def kRaw : PyStr := chars ['r', 'a', 'w']

def kTitle : PyStr := chars ['t', 'i', 't', 'l', 'e']

def kSource : PyStr := chars ['s', 'o', 'u', 'r', 'c', 'e']

def kYear : PyStr := chars ['y', 'e', 'a', 'r']

def kVolume : PyStr := chars ['v', 'o', 'l', 'u', 'm', 'e']

def kPages : PyStr := chars ['p', 'a', 'g', 'e', 's']

def kIssue : PyStr := chars ['i', 's', 's', 'u', 'e']

def kAuthors : PyStr := chars ['a', 'u', 't', 'h', 'o', 'r', 's']

def kIdentifiers : PyStr :=
  chars ['i', 'd', 'e', 'n', 't', 'i', 'f', 'i', 'e', 'r', 's']

def kDoi : PyStr := chars ['d', 'o', 'i']

def kArxivId : PyStr := chars ['a', 'r', 'x', 'i', 'v', '_', 'i', 'd']

def kReftype : PyStr := chars ['r', 'e', 'f', 't', 'y', 'p', 'e']

def kScore : PyStr := chars ['s', 'c', 'o', 'r', 'e']

def kArxiv : PyStr := chars ['a', 'r', 'x', 'i', 'v']

/-- An optional string field as a Python value. -/
def ovalue : Option PyStr → Value
  | Option.none => Value.none
  | some s => Value.str s

/-- Modelled from the spec: `Reference.to_dict()`, the field-name-to-value
view of a Record iterated by `calculate_belief`. -/
def to_dict (r : Reference) : List (PyStr × Value) :=
  [(kRaw, ovalue r.raw), (kTitle, ovalue r.title), (kSource, ovalue r.source),
   (kYear, r.year), (kVolume, ovalue r.volume), (kPages, ovalue r.pages),
   (kIssue, ovalue r.issue), (kAuthors, Value.authors r.authors),
   (kIdentifiers, Value.idents r.identifiers), (kDoi, ovalue r.doi),
   (kArxivId, ovalue r.arxiv_id), (kReftype, ovalue r.reftype),
   (kScore, match r.score with | some q => Value.float q | Option.none => Value.none)]

/-- Python falsiness of a field value (`not value`). -/
def falsy : Value → Bool
  | Value.none => true
  | Value.str s => s.isEmpty
  | Value.int n => n = 0
  | Value.float q => q = 0
  | Value.authors l => l.isEmpty
  | Value.idents l => l.isEmpty

-- The belief functions of `beliefs.py`.

/-- The type of a belief function; an `error` is a raised exception. -/
abbrev BFunc : Type := Value → Except PyError ℚ

/-- `unity`: returns 1.0. -/
def unity : BFunc := fun _ => Except.ok 1

/-- `words_title` in the graceful-degradation configuration: the optional
bloom-filter data is unavailable, so the scorer is the constant `unity`
(`beliefs.py` lines 232-237). -/
def words_title : BFunc := unity

/-- `words_auth`, likewise `unity` without the optional bloom filters. -/
def words_auth : BFunc := unity

/-- Python `len(value)` over our values (`TypeError` on unsized values). -/
def pyLen : Value → Except PyError Nat
  | Value.str s => Except.ok s.length
  | Value.authors l => Except.ok l.length
  | Value.idents l => Except.ok l.length
  | _ => Except.error PyError.typeError

/-- Python `int(value)`: identity on ints, truncation on floats, parsing
on strings (`ValueError` on a parse failure), `TypeError` otherwise. -/
def pyIntCoerce : Value → Except PyError Int
  | Value.int n => Except.ok n
  | Value.float q => Except.ok (pyTrunc q)
  | Value.str s =>
    match pyIntParse s with
    | some n => Except.ok n
    | Option.none => Except.error PyError.valueError
  | _ => Except.error PyError.typeError

/-- `minimum_length(length)`: 0 if `length > len(value) > 0`, else 1. -/
def minimum_length (len : Nat) : BFunc := fun v =>
  match pyLen v with
  | Except.ok l => if l < len ∧ 0 < l then Except.ok 0 else Except.ok 1
  | Except.error e => Except.error e

/-- `likely(func, min_prob, max_prob)`: clamp the output into a range. -/
def likely (f : BFunc) (minProb maxProb : ℚ) : BFunc := fun v =>
  match f v with
  | Except.ok p => Except.ok (max (min p maxProb) minProb)
  | Except.error e => Except.error e

/-- Python substring containment `pat in s` (contiguous). -/
def isSubstr (pat : PyStr) : PyStr → Bool
  | [] => pat.isPrefixOf []
  | c :: rest => pat.isPrefixOf (c :: rest) || isSubstr pat rest

/-- `does_not_contain_arxiv`: 0.0 for non-strings. -/
def does_not_contain_arxiv : BFunc := fun v =>
  match v with
  | Value.str s =>
    Except.ok (if isSubstr (chars ['a', 'r', 'x', 'i', 'v']) s then 0 else 1)
  | _ => Except.ok 0

/-- `contains(substring, false_prob, true_prob)`: 0.0 for non-strings. -/
def contains (sub : PyStr) (falseProb trueProb : ℚ) : BFunc := fun v =>
  match v with
  | Value.str s => Except.ok (if isSubstr sub s then trueProb else falseProb)
  | _ => Except.ok 0

/-- `ends_with(substring, false_prob, true_prob)`: 0.0 for non-strings. -/
def ends_with (sub : PyStr) (falseProb trueProb : ℚ) : BFunc := fun v =>
  match v with
  | Value.str s => Except.ok (if sub.isSuffixOf s then trueProb else falseProb)
  | _ => Except.ok 0

/-- `doesnt_end_with`: `ends_with` with the two probabilities swapped. -/
def doesnt_end_with (sub : PyStr) (falseProb trueProb : ℚ) : BFunc :=
  ends_with sub trueProb falseProb

/-- `is_integer`: 1.0 when `int(value)` succeeds, 0.0 on `ValueError`;
any other exception (e.g. `TypeError` on a list) propagates. -/
def is_integer : BFunc := fun v =>
  match pyIntCoerce v with
  | Except.ok _ => Except.ok 1
  | Except.error PyError.valueError => Except.ok 0
  | Except.error e => Except.error e

/-- `is_integer` applied to one extracted token string (a pure value:
`int` on a string can only raise `ValueError`, which yields 0.0). -/
def is_integer_str (t : PyStr) : ℚ := if (pyIntParse t).isSome then 1 else 0

/-- `is_integer_like` (`beliefs.py` lines 137-157). -/
def is_integer_like : BFunc := fun v =>
  match v with
  | Value.none => Except.ok 0
  | Value.int _ => Except.ok 1
  | Value.float _ => Except.ok 0
  | Value.authors _ => Except.ok 0
  | Value.idents _ => Except.ok 0
  | Value.str s =>
    if s.length = 0 then Except.ok 0
    else
      let ts := scanInts s
      if ts.1 = [] then Except.ok 0
      else
        Except.ok
          (((ts.1.map is_integer_str).sum / (ts.1.length : ℚ)) *
            (((s.length : ℚ) - (ts.2.length : ℚ)) / (s.length : ℚ)))

/-- `is_year`: 1.0 when `int(value)` lies strictly between 1600 and 2100,
0.0 otherwise, with a `ValueError` giving 0.0 and other exceptions
propagating. -/
def is_year : BFunc := fun v =>
  match pyIntCoerce v with
  | Except.ok y => if 1600 < y ∧ y < 2100 then Except.ok 1 else Except.ok 0
  | Except.error PyError.valueError => Except.ok 0
  | Except.error e => Except.error e

/-- `is_year` applied to one extracted token string (pure). -/
def is_year_str (t : PyStr) : ℚ :=
  match pyIntParse t with
  | some y => if 1600 < y ∧ y < 2100 then 1 else 0
  | Option.none => 0

/-- `is_year_like`: averages `is_year` over the `RE_INTEGER` tokens of a
string; the enclosing `except Exception` turns every failure — including
the `TypeError` from `re.findall` on a non-string — into 0.0. -/
def is_year_like : BFunc := fun v =>
  match v with
  | Value.str s =>
    let toks := (scanInts s).1
    if toks = [] then Except.ok 0
    else Except.ok ((toks.map is_year_str).sum / (toks.length : ℚ))
  | _ => Except.ok 0

/-- `is_pages`: the anchored two-number pattern; `pages.match` raises
`TypeError` on a non-string, which `is_pages` does not catch. -/
def is_pages : BFunc := fun v =>
  match v with
  | Value.str s =>
    match pagesMatch s with
    | some (a, b) => if a < b then Except.ok 1 else Except.ok (1 / 2)
    | Option.none => Except.ok 0
  | _ => Except.error PyError.typeError

/-- Modelled from the spec: `REGEX_DOI`
(`references/util/regex_identifiers.py` is not among the provided
sources); the canonical DOI grammar `10.<4+ digits>/<non-empty suffix>`,
matched at the start of the string. -/
def doiLike (s : PyStr) : Bool :=
  (chars ['1', '0', '.']).isPrefixOf s &&
    (let r := s.drop 3
     let ds := r.takeWhile isDigit
     decide (4 ≤ ds.length) && ((r.drop ds.length).head? == some 47) &&
       decide (r.drop (ds.length + 1) ≠ []))

/-- `valid_doi`; `re.match` raises `TypeError` on a non-string. -/
def valid_doi : BFunc := fun v =>
  match v with
  | Value.str s => Except.ok (if doiLike s then 1 else 0)
  | _ => Except.error PyError.typeError

/-- Modelled from the spec: `REGEX_ISBN_10` (the util module is not
among the provided sources); ten digits (final check character may be
`X`) with optional separators. -/
def isbn10Like (s : PyStr) : Bool :=
  let core := s.filter (fun c => !(c = 45 || c = 32))
  decide (core.length = 10) && core.dropLast.all isDigit &&
    (match core.getLast? with
     | some c => isDigit c || c = 88
     | Option.none => false)

/-- Modelled from the spec: `REGEX_ISBN_13`; thirteen digits with
optional separators. -/
def isbn13Like (s : PyStr) : Bool :=
  let core := s.filter (fun c => !(c = 45 || c = 32))
  decide (core.length = 13) && core.all isDigit

/-- `valid_identifier` (`beliefs.py` lines 202-217): the fraction of
entries that are well-formed ISBNs, over the raw length of the input —
with no guard, so an empty list raises `ZeroDivisionError`.  Iterating a
non-empty string raises `AttributeError` at `ID.get`; unsized values
raise `TypeError` at `len`. -/
def valid_identifier : BFunc := fun v =>
  match v with
  | Value.idents l =>
    if l.length = 0 then Except.error PyError.zeroDivisionError
    else
      Except.ok
        (((l.filter (fun id => decide (id.identifier_type = chars ['i', 's', 'b', 'n']) &&
            (isbn10Like id.identifier || isbn13Like id.identifier))).length : ℚ) /
          (l.length : ℚ))
  | Value.authors l =>
    if l.length = 0 then Except.error PyError.zeroDivisionError else Except.ok 0
  | Value.str s =>
    if s.length = 0 then Except.error PyError.zeroDivisionError
    else Except.error PyError.attributeError
  | _ => Except.error PyError.typeError

/-- Modelled from the spec: `REGEX_ARXIV_STRICT` (the util module is not
among the provided sources); the post-2007 identifier grammar
`NNNN.NNNN(N)`. -/
def arxivIdLike (s : PyStr) : Bool :=
  let d1 := s.takeWhile isDigit
  decide (d1.length = 4) && ((s.drop 4).head? == some 46) &&
    (let r := s.drop 5
     let d2 := r.takeWhile isDigit
     (decide (d2.length = 4) || decide (d2.length = 5)) &&
       decide (r.drop d2.length = []))

/-- `valid_arxiv_id`; `re.match` raises `TypeError` on a non-string. -/
def valid_arxiv_id : BFunc := fun v =>
  match v with
  | Value.str s => Except.ok (if arxivIdLike s then 1 else 0)
  | _ => Except.error PyError.typeError

/-- The worker for Python `str.split()` (split on whitespace runs,
discarding empty pieces); `acc` is the current word, reversed. -/
def pySplitGo : PyStr → PyStr → List PyStr
  | [], acc => if acc = [] then [] else [acc.reverse]
  | c :: rest, acc =>
    if isSpace c then
      (if acc = [] then pySplitGo rest [] else acc.reverse :: pySplitGo rest [])
    else pySplitGo rest (c :: acc)

/-- Python `str.split()` with no arguments. -/
def pySplit (s : PyStr) : List PyStr := pySplitGo s []

/-- The per-author contribution in `words_author_structure`: with the bloom
filters degraded `words_auth` is 1.0, divided by the number of surname
tokens when a surname is present and non-empty.  An all-whitespace
surname is truthy but splits to zero tokens, raising
`ZeroDivisionError`. -/
def authScore (a : Author) : Except PyError ℚ :=
  match a.surname with
  | Option.none => Except.ok 1
  | some srn =>
    if srn.isEmpty then Except.ok 1
    else
      let parts := pySplit srn
      if parts.length = 0 then Except.error PyError.zeroDivisionError
      else Except.ok (1 / (parts.length : ℚ))

/-- `words_author_structure` (`beliefs.py` lines 240-256). Iterating a
non-empty string of characters raises `AttributeError` at
`auth.values()`; identifier dicts carry no `surname`, so each scores the
degraded `words_auth` value 1.0. -/
def words_author_structure : BFunc := fun v =>
  match v with
  | Value.authors l =>
    match l.mapM authScore with
    | Except.ok scores =>
      if l.length = 0 then Except.ok 0 else Except.ok (scores.sum / (l.length : ℚ))
    | Except.error e => Except.error e
  | Value.idents l => if l.length = 0 then Except.ok 0 else Except.ok 1
  | Value.str s => if s.isEmpty then Except.ok 0 else Except.error PyError.attributeError
  | _ => Except.error PyError.typeError

/-- `BELIEF_FUNCTIONS` (`beliefs.py` lines 259-270), in source order.
Note the key `arxiv`, which is not a `to_dict` field name. -/
def BELIEF_FUNCTIONS : List (PyStr × List BFunc) :=
  [(kTitle, [words_title, minimum_length 5]),
   (kRaw, [words_title, words_auth]),
   (kAuthors, [words_author_structure]),
   (kDoi, [valid_doi, contains (chars ['.']) 0 1, contains (chars ['/']) 0 1,
           doesnt_end_with (chars ['-']) 0 1]),
   (kVolume, [likely is_integer_like (4 / 5) 1]),
   (kPages, [is_integer_like, is_pages]),
   (kSource, [does_not_contain_arxiv]),
   (kYear, [is_integer_like, is_integer, is_year_like, is_year]),
   (kIdentifiers, [valid_identifier]),
   (kArxiv, [valid_arxiv_id])]

/-- The `try`/`except` around one belief function in `calculate_belief`:
a raised exception contributes 0 to the running sum. -/
def recover : Except PyError ℚ → ℚ
  | Except.ok q => q
  | Except.error _ => 0

/-- The belief assigned to one field: 1.0 for a falsy value, otherwise
the sum of the (recovered) function outputs over the number of functions
registered for the field name (`[unity]` when unregistered). -/
def fieldBelief (table : List (PyStr × List BFunc)) (k : PyStr) (v : Value) : ℚ :=
  if falsy v then 1
  else
    let funcs := (table.lookup k).getD [unity]
    ((funcs.map (fun f => recover (f v))).sum) / (funcs.length : ℚ)

/-- `calculate_belief` over an arbitrary registry of belief functions. -/
def calculate_beliefWith (table : List (PyStr × List BFunc)) (r : Reference) :
    List (PyStr × ℚ) :=
  (to_dict r).map (fun p => (p.1, fieldBelief table p.1 p.2))

/-- `calculate_belief` (`beliefs.py` lines 273-309). -/
def calculate_belief (r : Reference) : List (PyStr × ℚ) :=
  calculate_beliefWith BELIEF_FUNCTIONS r

-- `normalize.py`.

/-- `_remove_dots_from_author_names`: remove dots from `givennames` and
`fullname` (when present) and title-case the results. -/
def _remove_dots_from_author_names (a : Author) : Author :=
  { a with
    givennames := a.givennames.map (fun g => pyTitle (_remove_dots g)),
    fullname := a.fullname.map (fun f => pyTitle (_remove_dots f)) }

/-- Modelled from the spec: the registry of arXiv archive category codes
iterated by `_fix_arxiv_id` (`arxiv.taxonomy.ARCHIVES.keys()`, an external
dependency of the repository, which includes the historical archives), in
its alphabetical listing order. -/
def ARCHIVES : List PyStr :=
  [chars ['a', 'c', 'c', '-', 'p', 'h', 'y', 's'],
   chars ['a', 'd', 'a', 'p', '-', 'o', 'r', 'g'],
   chars ['a', 'l', 'g', '-', 'g', 'e', 'o', 'm'],
   chars ['a', 'o', '-', 's', 'c', 'i'],
   chars ['a', 's', 't', 'r', 'o', '-', 'p', 'h'],
   chars ['a', 't', 'o', 'm', '-', 'p', 'h'],
   chars ['b', 'a', 'y', 'e', 's', '-', 'a', 'n'],
   chars ['c', 'h', 'a', 'o', '-', 'd', 'y', 'n'],
   chars ['c', 'h', 'e', 'm', '-', 'p', 'h'],
   chars ['c', 'm', 'p', '-', 'l', 'g'],
   chars ['c', 'o', 'm', 'p', '-', 'g', 'a', 's'],
   chars ['c', 'o', 'n', 'd', '-', 'm', 'a', 't'],
   chars ['c', 's'],
   chars ['d', 'g', '-', 'g', 'a'],
   chars ['e', 'c', 'o', 'n'],
   chars ['e', 'e', 's', 's'],
   chars ['f', 'u', 'n', 'c', 't', '-', 'a', 'n'],
   chars ['g', 'r', '-', 'q', 'c'],
   chars ['h', 'e', 'p', '-', 'e', 'x'],
   chars ['h', 'e', 'p', '-', 'l', 'a', 't'],
   chars ['h', 'e', 'p', '-', 'p', 'h'],
   chars ['h', 'e', 'p', '-', 't', 'h'],
   chars ['m', 'a', 't', 'h'],
   chars ['m', 'a', 't', 'h', '-', 'p', 'h'],
   chars ['m', 't', 'r', 'l', '-', 't', 'h'],
   chars ['n', 'l', 'i', 'n'],
   chars ['n', 'u', 'c', 'l', '-', 'e', 'x'],
   chars ['n', 'u', 'c', 'l', '-', 't', 'h'],
   chars ['p', 'a', 't', 't', '-', 's', 'o', 'l'],
   chars ['p', 'h', 'y', 's', 'i', 'c', 's'],
   chars ['p', 'l', 'a', 's', 'm', '-', 'p', 'h'],
   chars ['q', '-', 'a', 'l', 'g'],
   chars ['q', '-', 'b', 'i', 'o'],
   chars ['q', '-', 'f', 'i', 'n'],
   chars ['q', 'u', 'a', 'n', 't', '-', 'p', 'h'],
   chars ['s', 'o', 'l', 'v', '-', 'i', 'n', 't'],
   chars ['s', 't', 'a', 't'],
   chars ['s', 'u', 'p', 'r', '-', 'c', 'o', 'n']]

/-- `_fix_arxiv_id` on a string value: for the first category whose
dash-stripped form occurs in the value, replace that form by the category
and return. -/
def _fix_arxiv_id : List PyStr → PyStr → PyStr
  | [], v => v
  | c :: rest, v =>
    let typo := c.filter (fun x => x ≠ 45)
    if isSubstr typo v then pyReplace v typo c else _fix_arxiv_id rest v

/-- `normalize_record` (`normalize.py` lines 55-75): apply each
registered normalizer to its populated field, element-wise on list
fields, skipping absent fields. -/
def normalize_record (r : Reference) : Reference :=
  { r with
    authors := r.authors.map _remove_dots_from_author_names,
    title := r.title.map _remove_leading_trailing_nonalpha,
    source := r.source.map (fun s => pyTitle (_remove_dots s)),
    arxiv_id := r.arxiv_id.map (_fix_arxiv_id ARCHIVES) }

-- `filter_records` (`normalize.py` lines 94-123).

/-- The observable post-state of the input records: the loop writes the
paired score onto every record, kept or dropped. -/
def assign_scores (records : List (Reference × ℚ)) : List Reference :=
  records.map (fun p => { p.1 with score := some p.2 })

/-- `filter_records`: write each score onto its record, keep the records
whose score meets the threshold, and return them with the mean of the
retained scores (`([], 0.0)` when none are retained). -/
def filter_records (records : List (Reference × ℚ)) (threshold : ℚ) :
    List Reference × ℚ :=
  let scored := records.map (fun p => ({ p.1 with score := some p.2 }, p.2))
  let filtered := scored.filter (fun p => decide (threshold ≤ p.2))
  if filtered.length = 0 then ([], 0)
  else (filtered.map Prod.fst, (filtered.map Prod.snd).sum / (filtered.length : ℚ))

/-- A concrete record exercising the belief pipeline on populated
fields. -/
def wref : Reference :=
  { emptyRef with
    pages := some (chars ['1', '2', '-', '3', '4']),
    year := Value.int 2011,
    score := some 1 }

/-- A concrete record with a non-empty `identifiers` list. -/
def widRef : Reference :=
  { emptyRef with
    identifiers := [{ identifier_type := chars ['i', 's', 'b', 'n'],
                      identifier := chars ['x'] }] }

/-- A record whose `arxiv_id` holds the digraph-typo value `qalggeom`. -/
def rcQalg : Reference :=
  { emptyRef with arxiv_id := some (chars ['q', 'a', 'l', 'g', 'g', 'e', 'o', 'm']) }

-- Theorems.

-- Character-level facts used throughout.

theorem toUpperN_toUpperN (c : Nat) : toUpperN (toUpperN c) = toUpperN c := by
  unfold toUpperN; split_ifs <;> omega

theorem toLowerN_toLowerN (c : Nat) : toLowerN (toLowerN c) = toLowerN c := by
  unfold toLowerN; split_ifs <;> omega

theorem isAlphaN_toUpperN (c : Nat) : isAlphaN (toUpperN c) = isAlphaN c := by
  unfold isAlphaN toUpperN
  split_ifs <;> rw [Bool.eq_iff_iff] <;>
    simp only [Bool.or_eq_true, Bool.and_eq_true, decide_eq_true_eq] <;> omega

theorem isAlphaN_toLowerN (c : Nat) : isAlphaN (toLowerN c) = isAlphaN c := by
  unfold isAlphaN toLowerN
  split_ifs <;> rw [Bool.eq_iff_iff] <;>
    simp only [Bool.or_eq_true, Bool.and_eq_true, decide_eq_true_eq] <;> omega

theorem isAlphaN_charTitle (fl : Bool) (c : Nat) :
    isAlphaN (charTitle fl c) = isAlphaN c := by
  unfold charTitle
  split_ifs <;> simp [isAlphaN_toUpperN, isAlphaN_toLowerN]

theorem charTitle_charTitle (fl : Bool) (c : Nat) :
    charTitle fl (charTitle fl c) = charTitle fl c := by
  by_cases h : isAlphaN c = true
  · cases fl
    · have h2 : isAlphaN (toUpperN c) = true := by rw [isAlphaN_toUpperN]; exact h
      simp only [charTitle, h, h2, if_true, Bool.false_eq_true, if_false,
        toUpperN_toUpperN]
    · have h2 : isAlphaN (toLowerN c) = true := by rw [isAlphaN_toLowerN]; exact h
      simp only [charTitle, h, h2, if_true, toLowerN_toLowerN]
  · simp only [charTitle, h, Bool.false_eq_true, if_false]

theorem isSpace_not_isAlphaN (c : Nat) (h : isAlphaN c = true) : isSpace c = false := by
  unfold isAlphaN at h; unfold isSpace
  simp only [Bool.or_eq_true, Bool.and_eq_true, decide_eq_true_eq] at h
  simp only [Bool.or_eq_false_iff, decide_eq_false_iff_not]
  omega

theorem isSpace_charTitle (fl : Bool) (c : Nat) :
    isSpace (charTitle fl c) = isSpace c := by
  by_cases h : isAlphaN c = true
  · rw [isSpace_not_isAlphaN c h]
    cases fl
    · have h2 : isAlphaN (toUpperN c) = true := by rw [isAlphaN_toUpperN]; exact h
      simp only [charTitle, h, if_true, Bool.false_eq_true, if_false]
      exact isSpace_not_isAlphaN _ h2
    · have h2 : isAlphaN (toLowerN c) = true := by rw [isAlphaN_toLowerN]; exact h
      simp only [charTitle, h, if_true]
      exact isSpace_not_isAlphaN _ h2
  · simp only [charTitle, h, Bool.false_eq_true, if_false]

theorem charTitle_ne_dot (fl : Bool) (c : Nat) (h : c ≠ 46) : charTitle fl c ≠ 46 := by
  unfold charTitle toUpperN toLowerN isAlphaN
  split_ifs <;> simp_all <;> omega

-- `titleGo` facts.

theorem titleGo_cons (fl : Bool) (c : Nat) (rest : PyStr) :
    titleGo fl (c :: rest) = charTitle fl c :: titleGo (isAlphaN c) rest := rfl

theorem titleGo_titleGo (s : PyStr) : ∀ fl, titleGo fl (titleGo fl s) = titleGo fl s := by
  induction s with
  | nil => intro fl; rfl
  | cons c rest ih =>
    intro fl
    rw [titleGo_cons, titleGo_cons, charTitle_charTitle, isAlphaN_charTitle, ih]

theorem titleGo_mem {P : Nat → Prop}
    (hU : ∀ c, P c → P (toUpperN c)) (hL : ∀ c, P c → P (toLowerN c)) :
    ∀ (s : PyStr) (fl : Bool), (∀ c ∈ s, P c) → ∀ c ∈ titleGo fl s, P c := by
  intro s
  induction s with
  | nil => intro fl _ c hc; simp [titleGo] at hc
  | cons a rest ih =>
    intro fl hall c hc
    rw [titleGo_cons] at hc
    rcases List.mem_cons.mp hc with h | h
    · subst h
      have ha : P a := hall a (List.mem_cons_self a rest)
      unfold charTitle
      split_ifs with h1 h2
      · exact hL a ha
      · exact hU a ha
      · exact ha
    · exact ih (isAlphaN a) (fun x hx => hall x (List.mem_cons_of_mem a hx)) c h

theorem titleGo_head? (fl : Bool) (s : PyStr) :
    (titleGo fl s).head? = s.head?.map (charTitle fl) := by
  cases s <;> simp [titleGo_cons, titleGo]

theorem titleGo_getLast?_isSpace (s : PyStr) :
    ∀ fl, ((titleGo fl s).getLast?).map isSpace = (s.getLast?).map isSpace := by
  induction s with
  | nil => intro fl; rfl
  | cons c rest ih =>
    intro fl
    cases rest with
    | nil => simp [titleGo_cons, titleGo, isSpace_charTitle]
    | cons d rest' =>
      rw [titleGo_cons, titleGo_cons, List.getLast?_cons_cons, ← titleGo_cons,
        ih, List.getLast?_cons_cons]

-- `dropWhile` / `pyRDrop` boundary facts.

theorem head?_dropWhile_false (p : Nat → Bool) (l : PyStr) :
    ∀ c, (l.dropWhile p).head? = some c → p c = false := by
  intro c hc
  have h := List.head?_dropWhile_not p l
  rw [hc] at h
  exact h

theorem dropWhile_eq_self_of (p : Nat → Bool) (l : PyStr)
    (h : ∀ c, l.head? = some c → p c = false) : l.dropWhile p = l := by
  cases l with
  | nil => rfl
  | cons a t =>
    have := h a rfl
    rw [List.dropWhile_cons_of_neg]
    simp [this]

theorem pyRDrop_getLast?_false (p : Nat → Bool) (l : PyStr) :
    ∀ c, (pyRDrop p l).getLast? = some c → p c = false := by
  intro c hc
  unfold pyRDrop at hc
  rw [List.getLast?_reverse] at hc
  exact head?_dropWhile_false p l.reverse c hc

theorem pyRDrop_eq_self_of (p : Nat → Bool) (l : PyStr)
    (h : ∀ c, l.getLast? = some c → p c = false) : pyRDrop p l = l := by
  unfold pyRDrop
  rw [dropWhile_eq_self_of p l.reverse, List.reverse_reverse]
  intro c hc
  rw [List.head?_reverse] at hc
  exact h c hc

theorem pyRDrop_head? (p : Nat → Bool) (l : PyStr) (h : pyRDrop p l ≠ []) :
    (pyRDrop p l).head? = l.head? := by
  induction l using List.reverseRecOn with
  | nil => simp [pyRDrop] at h
  | append_singleton m a ih =>
    by_cases hp : p a = true
    · have he : pyRDrop p (m ++ [a]) = pyRDrop p m := by
        unfold pyRDrop
        rw [List.reverse_append]
        simp [List.dropWhile_cons_of_pos hp]
      rw [he] at h ⊢
      rw [ih h]
      cases m with
      | nil => simp [pyRDrop] at h
      | cons x xs => simp
    · have he : pyRDrop p (m ++ [a]) = m ++ [a] := by
        unfold pyRDrop
        rw [List.reverse_append]
        simp only [List.reverse_cons, List.reverse_nil, List.nil_append,
          List.singleton_append]
        rw [List.dropWhile_cons_of_neg (by simp [hp])]
        simp
      rw [he]

theorem pyRDrop_subset (p : Nat → Bool) (l : PyStr) : ∀ c ∈ pyRDrop p l, c ∈ l := by
  intro c hc
  unfold pyRDrop at hc
  rw [List.mem_reverse] at hc
  have := (List.dropWhile_sublist (l := l.reverse) p).subset hc
  rwa [List.mem_reverse] at this

-- Boundary facts for the strip-both-ends shape `pyRDrop p (l.dropWhile p)`,
-- shared by `pyStrip` and `_remove_leading_trailing_nonalpha`.

theorem dropEnds_head_false (p : Nat → Bool) (l : PyStr) :
    ∀ c, (pyRDrop p (l.dropWhile p)).head? = some c → p c = false := by
  intro c hc
  have hne : pyRDrop p (l.dropWhile p) ≠ [] := by
    intro he; rw [he] at hc; exact Option.noConfusion hc
  rw [pyRDrop_head? p _ hne] at hc
  exact head?_dropWhile_false p l c hc

theorem dropEnds_getLast_false (p : Nat → Bool) (l : PyStr) :
    ∀ c, (pyRDrop p (l.dropWhile p)).getLast? = some c → p c = false :=
  pyRDrop_getLast?_false p _

theorem dropEnds_eq_self (p : Nat → Bool) (l : PyStr)
    (hh : ∀ c, l.head? = some c → p c = false)
    (hl : ∀ c, l.getLast? = some c → p c = false) :
    pyRDrop p (l.dropWhile p) = l := by
  rw [dropWhile_eq_self_of p l hh, pyRDrop_eq_self_of p l hl]

theorem dropEnds_idem (p : Nat → Bool) (l : PyStr) :
    pyRDrop p ((pyRDrop p (l.dropWhile p)).dropWhile p) = pyRDrop p (l.dropWhile p) :=
  dropEnds_eq_self p _ (dropEnds_head_false p l) (dropEnds_getLast_false p l)

/-- `_remove_leading_trailing_nonalpha` is idempotent: after one pass the
boundary characters (if any) are alphanumeric. -/
theorem remove_nonalpha_idem (s : PyStr) :
    _remove_leading_trailing_nonalpha (_remove_leading_trailing_nonalpha s) =
      _remove_leading_trailing_nonalpha s :=
  dropEnds_idem _ s

-- `subDots` facts.

theorem subDotsGo_no_dot : ∀ (sk : Bool) (s : PyStr), ∀ c ∈ subDotsGo sk s, c ≠ 46 := by
  intro sk s
  induction s generalizing sk with
  | nil => intro c hc; simp [subDotsGo] at hc
  | cons a t ih =>
    intro c hc
    rw [subDotsGo] at hc
    split_ifs at hc with h1 h2
    · exact ih true c hc
    · rcases List.mem_cons.mp hc with h | h
      · omega
      · exact ih true c h
    · rcases List.mem_cons.mp hc with h | h
      · subst h; exact h2
      · exact ih false c h

theorem subDots_eq_self (s : PyStr) (h : ∀ c ∈ s, c ≠ 46) : subDots s = s := by
  unfold subDots
  induction s with
  | nil => rfl
  | cons a t ih =>
    have ha : a ≠ 46 := h a (List.mem_cons_self a t)
    rw [subDotsGo]
    simp only [Bool.false_and, Bool.false_eq_true, if_false, ha, ite_false]
    rw [ih (fun c hc => h c (List.mem_cons_of_mem a hc))]

theorem toUpperN_ne_dot (c : Nat) (h : c ≠ 46) : toUpperN c ≠ 46 := by
  unfold toUpperN; split_ifs <;> omega

theorem toLowerN_ne_dot (c : Nat) (h : c ≠ 46) : toLowerN c ≠ 46 := by
  unfold toLowerN; split_ifs <;> omega

theorem pyStrip_subset (s : PyStr) : ∀ c ∈ pyStrip s, c ∈ s := by
  intro c hc
  unfold pyStrip at hc
  have h1 := pyRDrop_subset isSpace _ c hc
  exact (List.dropWhile_sublist (l := s) isSpace).subset h1

/-- The source/author-name normalizer `lambda s: _remove_dots(s).title()`
is idempotent: its output has no dots, no leading or trailing whitespace,
and is already title-cased. -/
theorem norm_source_idem (s : PyStr) :
    pyTitle (_remove_dots (pyTitle (_remove_dots s))) = pyTitle (_remove_dots s) := by
  have hBnodot : ∀ c ∈ pyStrip (subDots s), c ≠ 46 := fun c hc =>
    subDotsGo_no_dot false s c (pyStrip_subset (subDots s) c hc)
  set B := pyStrip (subDots s) with hB
  set t := pyTitle B with ht
  have htnodot : ∀ c ∈ t, c ≠ 46 :=
    titleGo_mem toUpperN_ne_dot toLowerN_ne_dot B false hBnodot
  have hsub : subDots t = t := subDots_eq_self t htnodot
  have hBhead : ∀ c, B.head? = some c → isSpace c = false := by
    rw [hB]; unfold pyStrip; exact dropEnds_head_false isSpace (subDots s)
  have hBlast : ∀ c, B.getLast? = some c → isSpace c = false := by
    rw [hB]; unfold pyStrip; exact dropEnds_getLast_false isSpace (subDots s)
  have hthead : ∀ c, t.head? = some c → isSpace c = false := by
    intro c hc
    rw [ht] at hc
    unfold pyTitle at hc
    rw [titleGo_head? false B] at hc
    cases hBh : B.head? with
    | none => rw [hBh] at hc; exact Option.noConfusion hc
    | some b =>
      rw [hBh] at hc
      have hcb : c = charTitle false b := by
        simpa using hc.symm
      rw [hcb, isSpace_charTitle]
      exact hBhead b hBh
  have htlast : ∀ c, t.getLast? = some c → isSpace c = false := by
    intro c hc
    have hmap : Option.map isSpace (List.getLast? t) =
        Option.map isSpace (List.getLast? B) := titleGo_getLast?_isSpace B false
    rw [hc] at hmap
    cases hBl : B.getLast? with
    | none => rw [hBl] at hmap; simp at hmap
    | some b =>
      rw [hBl] at hmap
      have : isSpace c = isSpace b := by simpa using hmap
      rw [this]
      exact hBlast b hBl
  have hstrip : pyStrip t = t := by
    unfold pyStrip
    exact dropEnds_eq_self isSpace t hthead htlast
  show pyTitle (pyStrip (subDots t)) = t
  rw [hsub, hstrip, ht]
  unfold pyTitle
  exact titleGo_titleGo B false

theorem reTail_pos (p : Nat) (s : PyStr) (t : PyStr) (n : Nat)
    (h : reTail p s = some (t, n)) : p + 1 ≤ n := by
  simp only [reTail] at h
  split_ifs at h with h1 h2 h3
  all_goals
    have hd : ((s.drop p).takeWhile isDigit).length ≠ 0 := by
      intro he; exact h1 (List.eq_nil_of_length_eq_zero he)
  all_goals simp only [Option.some.injEq, Prod.mk.injEq] at h
  all_goals omega

theorem reMatchAt_pos (b : Bool) (s : PyStr) (t : PyStr) (n : Nat)
    (h : reMatchAt b s = some (t, n)) : 1 ≤ n := by
  simp only [reMatchAt] at h
  split at h
  · rename_i r hr
    split at hr
    · rcases r with ⟨t2, n2⟩
      have := reTail_pos 0 s t2 n2 hr
      simp only [Option.some.injEq, Prod.mk.injEq] at h
      omega
    · exact Option.noConfusion hr
  · split_ifs at h with h1
    have := reTail_pos _ s t n h
    omega

-- Association-list facts for `calculate_belief`.

theorem lookup_map_keyed (g : PyStr → Value → ℚ) :
    ∀ (l : List (PyStr × Value)) (k : PyStr) (v : Value),
      (k, v) ∈ l → (l.map Prod.fst).Nodup →
      (l.map (fun p => (p.1, g p.1 p.2))).lookup k = some (g k v) := by
  intro l
  induction l with
  | nil => intro k v hm _; simp at hm
  | cons a t ih =>
    intro k v hm hnd
    rcases a with ⟨ak, av⟩
    rw [List.map_cons, List.nodup_cons] at hnd
    by_cases hk : k = ak
    · subst hk
      have hv : v = av := by
        rcases List.mem_cons.mp hm with h | h
        · cases h; rfl
        · exact absurd (List.mem_map_of_mem Prod.fst h) hnd.1
      subst hv
      exact List.lookup_cons_self
    · have hbeq : (k == ak) = false := beq_eq_false_iff_ne.mpr hk
      rw [List.map_cons, List.lookup_cons, hbeq]
      apply ih k v ?_ hnd.2
      rcases List.mem_cons.mp hm with h | h
      · exact absurd (congrArg Prod.fst h) hk
      · exact h

theorem to_dict_keys (r : Reference) :
    (to_dict r).map Prod.fst =
      [kRaw, kTitle, kSource, kYear, kVolume, kPages, kIssue, kAuthors,
       kIdentifiers, kDoi, kArxivId, kReftype, kScore] := rfl

theorem to_dict_keys_nodup (r : Reference) : ((to_dict r).map Prod.fst).Nodup := by
  rw [to_dict_keys]; decide

theorem lookup_calculate_beliefWith (table : List (PyStr × List BFunc))
    (r : Reference) (k : PyStr) (v : Value) (hm : (k, v) ∈ to_dict r) :
    (calculate_beliefWith table r).lookup k = some (fieldBelief table k v) :=
  lookup_map_keyed _ (to_dict r) k v hm (to_dict_keys_nodup r)

/-- C1: for every populated (non-falsy) field, `calculate_belief` assigns
the arithmetic mean of the registered belief function outputs (the
default registration being the constant `unity`, so unregistered fields
get 1.0); a function that raises contributes 0 to the sum while still
counting in the divisor, and no exception escapes: every field is mapped
to some rational. -/
theorem C1_calculate_belief_mean :
    (∀ (r : Reference) (k : PyStr) (v : Value),
        (k, v) ∈ to_dict r → falsy v = false →
        (calculate_belief r).lookup k =
          some ((((BELIEF_FUNCTIONS.lookup k).getD [unity]).map
                (fun f => recover (f v))).sum /
              (((BELIEF_FUNCTIONS.lookup k).getD [unity]).length : ℚ))) ∧
    (∀ (r : Reference) (k : PyStr) (v : Value),
        (k, v) ∈ to_dict r → falsy v = false →
        BELIEF_FUNCTIONS.lookup k = Option.none →
        (calculate_belief r).lookup k = some 1) ∧
    (∀ (r : Reference) (k : PyStr) (v : Value),
        (k, v) ∈ to_dict r →
        ∃ q : ℚ, (calculate_belief r).lookup k = some q) := by
  refine ⟨?_, ?_, ?_⟩
  · intro r k v hm hf
    rw [calculate_belief, lookup_calculate_beliefWith _ r k v hm]
    simp only [fieldBelief, hf, Bool.false_eq_true, if_false]
  · intro r k v hm hf hnone
    rw [calculate_belief, lookup_calculate_beliefWith _ r k v hm]
    simp only [fieldBelief, hf, Bool.false_eq_true, if_false, hnone,
      Option.getD_none, List.map_cons, List.map_nil, List.length_cons,
      List.length_nil]
    norm_num [unity, recover]
  · intro r k v hm
    exact ⟨_, by rw [calculate_belief]; exact lookup_calculate_beliefWith _ r k v hm⟩

/-- Witness for C1 at a concrete record: the `pages` field gets the mean
of its two registered functions, and the unregistered `score` field gets
1.0. -/
theorem C1_witness :
    (calculate_belief wref).lookup kPages =
      some ((((BELIEF_FUNCTIONS.lookup kPages).getD [unity]).map
            (fun f => recover (f (Value.str (chars ['1', '2', '-', '3', '4']))))).sum /
          (((BELIEF_FUNCTIONS.lookup kPages).getD [unity]).length : ℚ)) ∧
    (calculate_belief wref).lookup kScore = some 1 := by
  constructor
  · exact C1_calculate_belief_mean.1 wref kPages
      (Value.str (chars ['1', '2', '-', '3', '4'])) (by decide) (by decide)
  · exact C1_calculate_belief_mean.2.1 wref kScore (Value.float 1)
      (by decide) (by decide) rfl

/-- C2: an empty/falsy field value short-circuits to belief 1.0 under any
registry of belief functions, and the belief map of the all-empty record is
identically 1.0. -/
theorem C2_empty_fields_unity :
    (∀ (table : List (PyStr × List BFunc)) (r : Reference) (k : PyStr) (v : Value),
        (k, v) ∈ to_dict r → falsy v = true →
        (calculate_beliefWith table r).lookup k = some 1) ∧
    calculate_belief emptyRef =
      [(kRaw, 1), (kTitle, 1), (kSource, 1), (kYear, 1), (kVolume, 1),
       (kPages, 1), (kIssue, 1), (kAuthors, 1), (kIdentifiers, 1), (kDoi, 1),
       (kArxivId, 1), (kReftype, 1), (kScore, 1)] := by
  constructor
  · intro table r k v hm hf
    rw [lookup_calculate_beliefWith table r k v hm]
    simp only [fieldBelief, hf, if_true]
  · rfl

/-- Witness for C2: the falsy `raw` field of the empty record scores 1.0
under the real registry. -/
theorem C2_witness :
    (calculate_beliefWith BELIEF_FUNCTIONS emptyRef).lookup kRaw = some 1 :=
  C2_empty_fields_unity.1 BELIEF_FUNCTIONS emptyRef kRaw Value.none (by decide) rfl

theorem mem_to_dict_year (r : Reference) : (kYear, r.year) ∈ to_dict r := by
  unfold to_dict
  exact List.mem_cons_of_mem _ (List.mem_cons_of_mem _ (List.mem_cons_of_mem _
    (List.mem_cons_self _ _)))

theorem mem_to_dict_identifiers (r : Reference) :
    (kIdentifiers, Value.idents r.identifiers) ∈ to_dict r := by
  unfold to_dict
  exact List.mem_cons_of_mem _ (List.mem_cons_of_mem _ (List.mem_cons_of_mem _
    (List.mem_cons_of_mem _ (List.mem_cons_of_mem _ (List.mem_cons_of_mem _
    (List.mem_cons_of_mem _ (List.mem_cons_of_mem _ (List.mem_cons_self _ _))))))))

/-- C9: `valid_identifier` divides by the length of its input with no
guard, so the empty list raises `ZeroDivisionError`; but `calculate_belief`
short-circuits an empty `identifiers` field to belief 1.0 before any
function runs, and on a non-empty list `valid_identifier` returns
normally, so the error branch is unreachable through the belief
interface. -/
theorem C9_valid_identifier_empty :
    valid_identifier (Value.idents []) = Except.error PyError.zeroDivisionError ∧
    (∀ r : Reference, r.identifiers = [] →
        (calculate_belief r).lookup kIdentifiers = some 1) ∧
    (∀ r : Reference, r.identifiers ≠ [] →
        ∃ q : ℚ, valid_identifier (Value.idents r.identifiers) = Except.ok q) := by
  refine ⟨rfl, ?_, ?_⟩
  · intro r hid
    have hm := mem_to_dict_identifiers r
    rw [hid] at hm
    rw [calculate_belief, lookup_calculate_beliefWith _ r _ _ hm]
    rfl
  · intro r hne
    cases h : r.identifiers with
    | nil => exact absurd h hne
    | cons a t => exact ⟨_, rfl⟩

/-- Witness for C9: the empty `identifiers` field of the empty record scores
1.0, and a concrete one-element list evaluates without error. -/
theorem C9_witness :
    (calculate_belief emptyRef).lookup kIdentifiers = some 1 ∧
    ∃ q : ℚ, valid_identifier (Value.idents widRef.identifiers) = Except.ok q :=
  ⟨C9_valid_identifier_empty.2.1 emptyRef rfl,
   C9_valid_identifier_empty.2.2 widRef (by decide)⟩

/-- C10: `is_year_like` maps any internal failure — including the
`TypeError` that `re.findall` raises on an integer argument — to 0.0, so
an integer-valued year contributes a zero `is_year_like` component and
the `year` belief of a record carrying a plausible integer year is
exactly 3/4, never 1.0. -/
theorem C10_int_year_like_zero :
    (∀ n : Int, is_year_like (Value.int n) = Except.ok 0) ∧
    (∀ (r : Reference) (n : Int), r.year = Value.int n → 1600 < n → n < 2100 →
        (calculate_belief r).lookup kYear = some (3 / 4)) := by
  constructor
  · intro n; rfl
  · intro r n hy h1 h2
    have hm := mem_to_dict_year r
    rw [hy] at hm
    rw [calculate_belief, lookup_calculate_beliefWith _ r _ _ hm]
    have hfalsy : falsy (Value.int n) = false := by
      simp only [falsy, decide_eq_false_iff_not]
      omega
    have hlk : BELIEF_FUNCTIONS.lookup kYear =
        some [is_integer_like, is_integer, is_year_like, is_year] := rfl
    simp only [fieldBelief, hfalsy, Bool.false_eq_true, if_false, hlk,
      Option.getD_some, List.map_cons, List.map_nil, List.length_cons,
      List.length_nil]
    have e4 : recover (is_year (Value.int n)) = 1 := by
      show recover (if 1600 < n ∧ n < 2100 then Except.ok 1 else Except.ok 0) = 1
      rw [if_pos ⟨h1, h2⟩]
      rfl
    have e1 : recover (is_integer_like (Value.int n)) = 1 := rfl
    have e2 : recover (is_integer (Value.int n)) = 1 := rfl
    have e3 : recover (is_year_like (Value.int n)) = 0 := rfl
    rw [e1, e2, e3, e4]
    norm_num

/-- Witness for C10 at the concrete year 2011. -/
theorem C10_witness :
    is_year_like (Value.int 2011) = Except.ok 0 ∧
    (calculate_belief wref).lookup kYear = some (3 / 4) :=
  ⟨C10_int_year_like_zero.1 2011,
   C10_int_year_like_zero.2 wref 2011 rfl (by decide) (by decide)⟩

/-- C3: the loop writes the paired score onto every input record
(`assign_scores` is the post-state of the inputs, kept or dropped); the
kept list is exactly the score-assigned records whose score meets the
threshold (boundary inclusive), in input order; and when anything is
kept, the composite is the arithmetic mean of the retained scores. -/
theorem C3_filter_records_spec :
    (∀ records : List (Reference × ℚ),
        (assign_scores records).map (fun r => r.score) =
          records.map (fun p => some p.2)) ∧
    (∀ (records : List (Reference × ℚ)) (t : ℚ),
        (filter_records records t).1 =
          (records.filter (fun p => decide (t ≤ p.2))).map
            (fun p => { p.1 with score := some p.2 })) ∧
    (∀ (records : List (Reference × ℚ)) (t : ℚ),
        (filter_records records t).1 ≠ [] →
        (filter_records records t).2 =
          ((records.filter (fun p => decide (t ≤ p.2))).map Prod.snd).sum /
            ((records.filter (fun p => decide (t ≤ p.2))).length : ℚ)) := by
  have hfil : ∀ (records : List (Reference × ℚ)) (t : ℚ),
      (records.map (fun p => ({ p.1 with score := some p.2 }, p.2))).filter
          (fun p => decide (t ≤ p.2)) =
        (records.filter (fun p => decide (t ≤ p.2))).map
          (fun p => ({ p.1 with score := some p.2 }, p.2)) := by
    intro records t
    rw [List.filter_map]
    rfl
  refine ⟨?_, ?_, ?_⟩
  · intro records
    unfold assign_scores
    rw [List.map_map]
    rfl
  · intro records t
    simp only [filter_records, hfil]
    split_ifs with h
    · simp only [List.length_map] at h
      rw [List.length_eq_zero] at h
      rw [h]
      rfl
    · rw [List.map_map]
      rfl
  · intro records t hne
    simp only [filter_records, hfil] at hne ⊢
    split_ifs at hne ⊢ with h
    · exact absurd rfl hne
    · rw [List.map_map, List.map_map, List.length_map]
      rfl

/-- Witness for C3 at one concrete record above the threshold. -/
theorem C3_witness :
    (filter_records [(emptyRef, 1)] 0).2 =
      ((([(emptyRef, 1)] : List (Reference × ℚ)).filter
          (fun p => decide ((0 : ℚ) ≤ p.2))).map Prod.snd).sum /
        ((([(emptyRef, 1)] : List (Reference × ℚ)).filter
          (fun p => decide ((0 : ℚ) ≤ p.2))).length : ℚ) :=
  C3_filter_records_spec.2.2 [(emptyRef, 1)] 0 (by decide)

/-- C4: filtering the empty list yields `([], 0.0)` for every threshold,
and more generally whenever no record score meets the threshold the
result is `([], 0.0)` — never a division error. -/
theorem C4_filter_records_empty :
    (∀ t : ℚ, filter_records [] t = ([], 0)) ∧
    (∀ (records : List (Reference × ℚ)) (t : ℚ),
        (∀ p ∈ records, p.2 < t) → filter_records records t = ([], 0)) := by
  constructor
  · intro t; rfl
  · intro records t hall
    have hfil : (records.map (fun p => ({ p.1 with score := some p.2 }, p.2))).filter
        (fun p => decide (t ≤ p.2)) = [] := by
      rw [List.filter_map]
      rw [show ((fun p : Reference × ℚ => decide (t ≤ p.2)) ∘
          (fun p : Reference × ℚ => ({ p.1 with score := some p.2 }, p.2))) =
          (fun p : Reference × ℚ => decide (t ≤ p.2)) from rfl]
      rw [List.filter_eq_nil_iff.mpr]
      · rfl
      · intro p hp
        simp only [decide_eq_true_eq, not_le]
        exact hall p hp
    simp only [filter_records, hfil]
    rfl

/-- Witness for C4: a record strictly below the threshold is dropped and
the composite is 0. -/
theorem C4_filter_records_empty_witness :
    filter_records [(emptyRef, 0)] 1 = ([], 0) :=
  C4_filter_records_empty.2 [(emptyRef, 0)] 1 (by decide)

/-- C5 counterexample: normalization is not idempotent.  On
`arxiv_id = "qalggeom"` one pass repairs the `alg-geom` typo, giving
`"qalg-geom"`; the second pass then also matches the `q-alg` typo and
gives `"q-alg-geom"`. -/
theorem C5_counterexample :
    normalize_record (normalize_record rcQalg) ≠ normalize_record rcQalg := by
  decide

theorem author_norm_idem (a : Author) :
    _remove_dots_from_author_names (_remove_dots_from_author_names a) =
      _remove_dots_from_author_names a := by
  rcases a with ⟨g, s, f⟩
  cases g <;> cases f <;>
    simp [_remove_dots_from_author_names, norm_source_idem]

/-- C5 amended: `normalize_record` is idempotent on every record whose
`arxiv_id` is absent (the author, title and source normalizers are
idempotent; only the arXiv-identifier repair is not). -/
theorem C5_normalize_idempotent_amended :
    ∀ r : Reference, r.arxiv_id = Option.none →
      normalize_record (normalize_record r) = normalize_record r := by
  intro r h
  have ht : ∀ o : Option PyStr,
      (o.map _remove_leading_trailing_nonalpha).map _remove_leading_trailing_nonalpha =
        o.map _remove_leading_trailing_nonalpha := by
    intro o; cases o <;> simp [remove_nonalpha_idem]
  have hs : ∀ o : Option PyStr,
      (o.map (fun s => pyTitle (_remove_dots s))).map (fun s => pyTitle (_remove_dots s)) =
        o.map (fun s => pyTitle (_remove_dots s)) := by
    intro o; cases o <;> simp [norm_source_idem]
  have ha : ∀ l : List Author,
      (l.map _remove_dots_from_author_names).map _remove_dots_from_author_names =
        l.map _remove_dots_from_author_names := by
    intro l
    rw [List.map_map]
    apply List.map_congr_left
    intro a _
    exact author_norm_idem a
  unfold normalize_record
  rw [h]
  congr 1
  · exact ht r.title
  · exact hs r.source
  · exact ha r.authors

/-- Witness for the amended C5 at a concrete record with populated
author, title and source fields. -/
theorem C5_amended_witness :
    normalize_record (normalize_record
      { emptyRef with
        title := some (chars ['(', 'a', ' ', 't', 'i', 't', 'l', 'e', ')']),
        source := some (chars ['p', 'h', 'y', 's', '.', ' ', 'r', 'e', 'v', '.']),
        authors := [{ givennames := some (chars ['j', '.', ' ', 'q', '.']),
                      surname := some (chars ['p', 'u', 'b', 'l', 'i', 'c']),
                      fullname := Option.none }] }) =
    normalize_record
      { emptyRef with
        title := some (chars ['(', 'a', ' ', 't', 'i', 't', 'l', 'e', ')']),
        source := some (chars ['p', 'h', 'y', 's', '.', ' ', 'r', 'e', 'v', '.']),
        authors := [{ givennames := some (chars ['j', '.', ' ', 'q', '.']),
                      surname := some (chars ['p', 'u', 'b', 'l', 'i', 'c']),
                      fullname := Option.none }] } :=
  C5_normalize_idempotent_amended _ rfl

theorem is_integer_like_str_cons (a : Nat) (t : PyStr) :
    is_integer_like (Value.str (a :: t)) =
      (if (scanInts (a :: t)).1 = [] then Except.ok 0
       else
         Except.ok ((((scanInts (a :: t)).1.map is_integer_str).sum /
              ((scanInts (a :: t)).1.length : ℚ)) *
            ((((a :: t).length : ℚ) - ((scanInts (a :: t)).2.length : ℚ)) /
              ((a :: t).length : ℚ)))) := rfl

/-- C6: `is_integer_like` scores 0.0 on a string with no recognized
numeric token; on a string with tokens it scores the fraction of tokens
that parse as integers times the fraction of the string length
occupied by the matched (removed) portion; an int scores 1.0 and empty
sized inputs score 0.0. -/
theorem C6_is_integer_like_spec :
    (∀ s : PyStr, (scanInts s).1 = [] → is_integer_like (Value.str s) = Except.ok 0) ∧
    (∀ s : PyStr, (scanInts s).1 ≠ [] →
        is_integer_like (Value.str s) =
          Except.ok ((((scanInts s).1.map is_integer_str).sum /
              ((scanInts s).1.length : ℚ)) *
            (((s.length : ℚ) - ((scanInts s).2.length : ℚ)) / (s.length : ℚ)))) ∧
    (∀ n : Int, is_integer_like (Value.int n) = Except.ok 1) ∧
    is_integer_like (Value.str []) = Except.ok 0 ∧
    is_integer_like (Value.authors []) = Except.ok 0 := by
  refine ⟨?_, ?_, fun n => rfl, rfl, rfl⟩
  · intro s h
    cases s with
    | nil => rfl
    | cons a t => rw [is_integer_like_str_cons, if_pos h]
  · intro s h
    cases s with
    | nil => exact absurd rfl h
    | cons a t => rw [is_integer_like_str_cons, if_neg h]

/-- Witness for C6: `"ab"` has no tokens and scores 0; `"1 2"` has the
single token `1` (the separating space is consumed by the first match,
so `2` has no leading whitespace and is not recognized). -/
theorem C6_witness :
    is_integer_like (Value.str (chars ['a', 'b'])) = Except.ok 0 ∧
    is_integer_like (Value.str (chars ['1', ' ', '2'])) =
      Except.ok ((((scanInts (chars ['1', ' ', '2'])).1.map is_integer_str).sum /
          ((scanInts (chars ['1', ' ', '2'])).1.length : ℚ)) *
        ((((chars ['1', ' ', '2']).length : ℚ) -
            ((scanInts (chars ['1', ' ', '2'])).2.length : ℚ)) /
          ((chars ['1', ' ', '2']).length : ℚ))) :=
  ⟨C6_is_integer_like_spec.1 (chars ['a', 'b']) (by decide),
   C6_is_integer_like_spec.2.1 (chars ['1', ' ', '2']) (by decide)⟩

/-- C7: `is_year` returns 1.0 exactly when `int(value)` succeeds with a
value strictly between 1600 and 2100, and 0.0 otherwise (for string and
int inputs); in particular at 1975, 2200 and `"abc"`. -/
theorem C7_is_year_spec :
    (∀ s : PyStr, is_year (Value.str s) =
        Except.ok (match pyIntParse s with
          | some y => if 1600 < y ∧ y < 2100 then 1 else 0
          | Option.none => 0)) ∧
    (∀ n : Int, is_year (Value.int n) =
        Except.ok (if 1600 < n ∧ n < 2100 then 1 else 0)) ∧
    (∀ v : Value, is_year v = Except.ok 1 ↔
        ∃ n : Int, pyIntCoerce v = Except.ok n ∧ 1600 < n ∧ n < 2100) ∧
    is_year (Value.int 1975) = Except.ok 1 ∧
    is_year (Value.int 2200) = Except.ok 0 ∧
    is_year (Value.str (chars ['a', 'b', 'c'])) = Except.ok 0 := by
  refine ⟨?_, ?_, ?_, rfl, rfl, rfl⟩
  · intro s
    cases h : pyIntParse s with
    | none => simp [is_year, pyIntCoerce, h]
    | some y =>
      simp only [is_year, pyIntCoerce, h]
      split_ifs <;> rfl
  · intro n
    simp only [is_year, pyIntCoerce]
    split_ifs <;> rfl
  · intro v
    constructor
    · intro h
      cases hc : pyIntCoerce v with
      | ok y =>
        refine ⟨y, rfl, ?_⟩
        simp only [is_year, hc] at h
        split_ifs at h with hy
        · exact hy
        · exact absurd (Except.ok.injEq _ _ ▸ h) (by norm_num)
      | error e =>
        cases e <;> simp [is_year, hc] at h
    · rintro ⟨n, hc, h1, h2⟩
      simp only [is_year, hc]
      rw [if_pos ⟨h1, h2⟩]

/-- C8: `is_pages` scores 1.0 on a matched pair with start < end, 0.5 on
a matched pair with start >= end, 0.0 with no match; in particular at
`"12-34"`, `"34-12"` and `"junk"`. -/
theorem C8_is_pages_spec :
    (∀ s : PyStr, is_pages (Value.str s) =
        Except.ok (match pagesMatch s with
          | some (a, b) => if a < b then 1 else 1 / 2
          | Option.none => 0)) ∧
    is_pages (Value.str (chars ['1', '2', '-', '3', '4'])) = Except.ok 1 ∧
    is_pages (Value.str (chars ['3', '4', '-', '1', '2'])) = Except.ok (1 / 2) ∧
    is_pages (Value.str (chars ['j', 'u', 'n', 'k'])) = Except.ok 0 := by
  refine ⟨?_, rfl, rfl, rfl⟩
  intro s
  cases h : pagesMatch s with
  | none => simp [is_pages, h]
  | some ab =>
    rcases ab with ⟨a, b⟩
    simp only [is_pages, h]
    split_ifs <;> rfl

/-- Witness for C7: the characterization applied at the year 1975. -/
theorem C7_witness : is_year (Value.int 1975) = Except.ok 1 :=
  (C7_is_year_spec.2.2.1 (Value.int 1975)).mpr ⟨1975, rfl, by decide, by decide⟩

/-- Witness for C8: the characterization applied at `"12-34"`. -/
theorem C8_witness :
    is_pages (Value.str (chars ['1', '2', '-', '3', '4'])) =
      Except.ok (match pagesMatch (chars ['1', '2', '-', '3', '4']) with
        | some (a, b) => if a < b then 1 else 1 / 2
        | Option.none => 0) :=
  C8_is_pages_spec.1 (chars ['1', '2', '-', '3', '4'])
